import Mathlib

/-!
Verification of the virtiofs FUSE wire layer of this repository.

The definitions below are a shallow embedding of
`integrations/virtiofs/src/filesystem_message.rs`: the thirteen fixed-layout
wire records, their `#[repr(C)]` sizes, the `ByteValued` byte-level
encoding/decoding (modelled on lists of byte values, every multi-byte integer
little-endian), and the `TryFrom<u32>` opcode decoder.  Components of the
virtiofs server that live outside the wire-format module (the Init, Write,
Forget handlers and the attribute synthesizer) are modelled from the design
document and are marked as such in their doc comments.
-/

set_option maxHeartbeats 1000000

namespace OpendalVirtioFs

/-! ## Little-endian byte strings

Machine integers are represented as `Nat` together with an explicit bound
`v < 256 ^ w`; a byte string is a `List Nat` whose elements are below 256. -/

/-- Little-endian byte string of width `w` for the value `v` (low byte first). -/
def leBytes : Nat → Nat → List Nat
  | 0, _ => []
  | w + 1, v => v % 256 :: leBytes w (v / 256)

/-- Value of a little-endian byte string (low byte first). -/
def leVal : List Nat → Nat
  | [] => 0
  | b :: bs => b + 256 * leVal bs

@[simp]
theorem leBytes_length : ∀ (w v : Nat), (leBytes w v).length = w
  | 0, _ => rfl
  | w + 1, v => by simp [leBytes, leBytes_length w]

theorem leBytes_mem_lt : ∀ (w v : Nat), ∀ b ∈ leBytes w v, b < 256
  | 0, _ => by intro b hb; simp [leBytes] at hb
  | w + 1, v => by
    intro b hb
    simp only [leBytes, List.mem_cons] at hb
    rcases hb with hb | hb
    · exact hb ▸ Nat.mod_lt _ (by omega)
    · exact leBytes_mem_lt w (v / 256) b hb

theorem leVal_leBytes : ∀ (w v : Nat), v < 256 ^ w → leVal (leBytes w v) = v
  | 0, v, h => by
    simp [Nat.pow_zero] at h
    simp [leBytes, leVal, h]
  | w + 1, v, h => by
    have hdiv : v / 256 < 256 ^ w := by
      apply Nat.div_lt_of_lt_mul
      calc v < 256 ^ (w + 1) := h
        _ = 256 * 256 ^ w := by ring
    simp only [leBytes, leVal, leVal_leBytes w (v / 256) hdiv]
    omega

theorem leBytes_leVal : ∀ (bs : List Nat), (∀ b ∈ bs, b < 256) →
    leBytes bs.length (leVal bs) = bs
  | [], _ => rfl
  | b :: bs, h => by
    have hb : b < 256 := h b (List.mem_cons_self b bs)
    have hmod : (b + 256 * leVal bs) % 256 = b := by
      rw [Nat.add_mul_mod_self_left, Nat.mod_eq_of_lt hb]
    have hdiv : (b + 256 * leVal bs) / 256 = leVal bs := by
      rw [Nat.add_mul_div_left _ _ (by omega : 0 < 256), Nat.div_eq_of_lt hb]
      omega
    simp only [List.length_cons, leBytes, leVal, hmod, hdiv]
    exact congrArg (b :: ·) (leBytes_leVal bs fun x hx => h x (List.mem_cons_of_mem b hx))

theorem leBytes_leVal_of_length (w : Nat) (bs : List Nat) (h : bs.length = w)
    (hb : ∀ b ∈ bs, b < 256) : leBytes w (leVal bs) = bs := by
  subst h
  exact leBytes_leVal bs hb

theorem leVal_lt : ∀ (bs : List Nat), (∀ b ∈ bs, b < 256) → leVal bs < 256 ^ bs.length
  | [], _ => by simp [leVal]
  | b :: bs, h => by
    have hb : b < 256 := h b (List.mem_cons_self b bs)
    have ih : leVal bs < 256 ^ bs.length :=
      leVal_lt bs fun x hx => h x (List.mem_cons_of_mem b hx)
    simp only [leVal, List.length_cons, pow_succ]
    calc b + 256 * leVal bs < 256 + 256 * leVal bs := by omega
      _ = 256 * (leVal bs + 1) := by ring
      _ ≤ 256 * 256 ^ bs.length := by
          exact Nat.mul_le_mul_left 256 (by omega)
      _ = 256 ^ bs.length * 256 := by ring

/-! ## Generic fixed-layout field codec

A record instance is flattened to a list of `(width, value)` pairs, one per
scalar field in declaration order; `encodeFields` lays them out back to back
with no padding (the records below are shown padding-free in `reprC_size`).
`decodeFields` reads a list of widths off the front of a byte string. -/

/-- Concatenated little-endian encodings of a list of `(width, value)` fields. -/
def encodeFields : List (Nat × Nat) → List Nat
  | [] => []
  | (w, v) :: fs => leBytes w v ++ encodeFields fs

/-- Read fields of the given widths off the front of a byte string. -/
def decodeFields : List Nat → List Nat → List (Nat × Nat)
  | [], _ => []
  | w :: ws, bs => (w, leVal (bs.take w)) :: decodeFields ws (bs.drop w)

/-- Total width of a list of fields. -/
def sumWidths : List Nat → Nat
  | [] => 0
  | w :: ws => w + sumWidths ws

@[simp]
theorem encodeFields_length : ∀ (fs : List (Nat × Nat)),
    (encodeFields fs).length = sumWidths (fs.map Prod.fst)
  | [] => rfl
  | (w, v) :: fs => by
    simp [encodeFields, sumWidths, encodeFields_length fs]

theorem encodeFields_mem_lt : ∀ (fs : List (Nat × Nat)), ∀ b ∈ encodeFields fs, b < 256
  | [], _, hb => by simp [encodeFields] at hb
  | (w, v) :: fs, b, hb => by
    simp only [encodeFields, List.mem_append] at hb
    rcases hb with hb | hb
    · exact leBytes_mem_lt w v b hb
    · exact encodeFields_mem_lt fs b hb

theorem decodeFields_encodeFields :
    ∀ (fs : List (Nat × Nat)), (∀ p ∈ fs, p.2 < 256 ^ p.1) →
    ∀ (rest : List Nat), decodeFields (fs.map Prod.fst) (encodeFields fs ++ rest) = fs
  | [], _, rest => rfl
  | (w, v) :: fs, h, rest => by
    have hv : v < 256 ^ w := h (w, v) (List.mem_cons_self _ _)
    have hlen : (leBytes w v).length = w := leBytes_length w v
    simp only [List.map_cons, encodeFields, decodeFields, List.append_assoc,
      List.take_left' hlen, List.drop_left' hlen, leVal_leBytes w v hv]
    exact congrArg ((w, v) :: ·)
      (decodeFields_encodeFields fs (fun p hp => h p (List.mem_cons_of_mem _ hp)) rest)

theorem encodeFields_decodeFields :
    ∀ (ws : List Nat) (bs : List Nat), bs.length = sumWidths ws →
    (∀ b ∈ bs, b < 256) → encodeFields (decodeFields ws bs) = bs
  | [], bs, hlen, _ => by
    simp only [sumWidths] at hlen
    simp [decodeFields, encodeFields, List.length_eq_zero.mp hlen]
  | w :: ws, bs, hlen, hb => by
    simp only [sumWidths] at hlen
    have htake : (bs.take w).length = w := by
      simp only [List.length_take]
      omega
    have htakeBytes : ∀ b ∈ bs.take w, b < 256 := fun b hbm =>
      hb b (List.mem_of_mem_take hbm)
    have hdropLen : (bs.drop w).length = sumWidths ws := by
      simp only [List.length_drop]
      omega
    have hdropBytes : ∀ b ∈ bs.drop w, b < 256 := fun b hbm =>
      hb b (List.mem_of_mem_drop hbm)
    have hfst : leBytes w (leVal (bs.take w)) = bs.take w :=
      leBytes_leVal_of_length w (bs.take w) htake htakeBytes
    simp only [decodeFields, encodeFields]
    rw [hfst, encodeFields_decodeFields ws (bs.drop w) hdropLen hdropBytes,
      List.take_append_drop]

theorem decodeFields_map_fst : ∀ (ws : List Nat) (bs : List Nat),
    (decodeFields ws bs).map Prod.fst = ws
  | [], _ => rfl
  | w :: ws, bs => by
    simp only [decodeFields, List.map_cons]
    exact congrArg (w :: ·) (decodeFields_map_fst ws (bs.drop w))

/-! ## Rust repr(C) layout

Size and alignment of the wire structs under the C layout rules used by
`#[repr(C)]` on the x86-64 targets the device server runs on: each field is
placed at the next offset aligned to its alignment, and the struct size is the
end offset rounded up to the largest field alignment. -/

/-- Size and alignment of a field type. -/
structure FieldTy where
  size : Nat
  align : Nat
deriving DecidableEq

def u64ty : FieldTy := ⟨8, 8⟩

def u32ty : FieldTy := ⟨4, 4⟩

def i32ty : FieldTy := ⟨4, 4⟩

def u16ty : FieldTy := ⟨2, 2⟩

/-- Layout of a fixed-size array type such as the `[u32; 7]` field of InitOut. -/
def arrayTy (n : Nat) (t : FieldTy) : FieldTy := ⟨n * t.size, t.align⟩

/-- Round `off` up to the next multiple of `a`. -/
def alignUp (off a : Nat) : Nat := (off + a - 1) / a * a

/-- Offset one past the last field when the fields are laid out in order. -/
def fieldsEnd (fields : List FieldTy) : Nat :=
  fields.foldl (fun off f => alignUp off f.align + f.size) 0

/-- Alignment of a repr(C) struct: the largest alignment of its fields. -/
def maxAlign (fields : List FieldTy) : Nat :=
  fields.foldl (fun a f => max a f.align) 1

/-- Size of a repr(C) struct with the given fields in order. -/
def reprCSize (fields : List FieldTy) : Nat :=
  alignUp (fieldsEnd fields) (maxAlign fields)

/-- Layout of a nested struct field (used for the `attr` field of EntryOut and
AttrOut). -/
def structTy (fields : List FieldTy) : FieldTy :=
  ⟨reprCSize fields, maxAlign fields⟩

/-- Sum of the field sizes alone, with no alignment padding. -/
def sumFieldSizes (fields : List FieldTy) : Nat :=
  fields.foldl (fun s f => s + f.size) 0

/-! ## Field type lists of the thirteen wire records

Transcribed field by field, in declaration order, from the struct definitions
in filesystem_message.rs. -/

def attrFieldTys : List FieldTy :=
  [u64ty, u64ty, u64ty, u64ty, u64ty, u64ty,
   u32ty, u32ty, u32ty, u32ty, u32ty, u32ty, u32ty, u32ty, u32ty, u32ty]

def inHeaderFieldTys : List FieldTy :=
  [u32ty, u32ty, u64ty, u64ty, u32ty, u32ty, u32ty, u16ty, u16ty]

def outHeaderFieldTys : List FieldTy :=
  [u32ty, i32ty, u64ty]

def initInFieldTys : List FieldTy :=
  [u32ty, u32ty, u32ty, u32ty]

def initOutFieldTys : List FieldTy :=
  [u32ty, u32ty, u32ty, u32ty, u16ty, u16ty, u32ty, u32ty, u16ty, u16ty, u32ty,
   arrayTy 7 u32ty]

def entryOutFieldTys : List FieldTy :=
  [u64ty, u64ty, u64ty, u64ty, u32ty, u32ty, structTy attrFieldTys]

def attrOutFieldTys : List FieldTy :=
  [u64ty, u32ty, u32ty, structTy attrFieldTys]

def createInFieldTys : List FieldTy :=
  [u32ty, u32ty, u32ty, u32ty]

def openInFieldTys : List FieldTy :=
  [u32ty, u32ty]

def openOutFieldTys : List FieldTy :=
  [u64ty, u32ty, u32ty]

def readInFieldTys : List FieldTy :=
  [u64ty, u64ty, u32ty, u32ty, u64ty, u32ty, u32ty]

def writeInFieldTys : List FieldTy :=
  [u64ty, u64ty, u32ty, u32ty, u64ty, u32ty, u32ty]

def writeOutFieldTys : List FieldTy :=
  [u32ty, u32ty]

/-! ## Errors and generic record decoding -/

/-- Modelled from the spec: the error kinds of the server core that these
claims touch (error.rs is not among the verified source files).  The design
document names InvalidMessage for a record shorter than its size,
UnsupportedOpcode for an unknown opcode value, InvalidArgument (EINVAL) for
a non-sequential write, and a protocol error (EPROTO) for an Init with a
client major version below 7. -/
inductive FsError where
  | invalidMessage
  | unsupportedOpcode
  | invalidArgument
  | protocolError
deriving DecidableEq

/-- Decode a fixed-layout record: fail when the input is shorter than the
record, otherwise read the fields off the front and build the record. -/
def decodeRecord {T : Type} (widths : List Nat) (mk : List Nat → T)
    (bs : List Nat) : Except FsError T :=
  if bs.length < sumWidths widths then Except.error FsError.invalidMessage
  else Except.ok (mk ((decodeFields widths bs).map Prod.snd))

theorem decodeRecord_encodeFields {T : Type} (widths : List Nat)
    (mk : List Nat → T) (t : T) (fv : List (Nat × Nat))
    (hw : fv.map Prod.fst = widths)
    (hmk : mk (fv.map Prod.snd) = t)
    (hlt : ∀ p ∈ fv, p.2 < 256 ^ p.1) :
    decodeRecord widths mk (encodeFields fv) = Except.ok t := by
  have hlen : (encodeFields fv).length = sumWidths widths := by
    rw [encodeFields_length, hw]
  have hnot : ¬ (encodeFields fv).length < sumWidths widths := by omega
  have hdec : decodeFields widths (encodeFields fv) = fv := by
    rw [← hw]
    have h2 := decodeFields_encodeFields fv hlt []
    rwa [List.append_nil] at h2
  simp only [decodeRecord, if_neg hnot, hdec, hmk]

theorem encodeFields_decodeRecord {T : Type} (widths : List Nat)
    (mk : List Nat → T) (fv : T → List (Nat × Nat)) (bs : List Nat)
    (hcoh : fv (mk ((decodeFields widths bs).map Prod.snd)) = decodeFields widths bs)
    (hlen : bs.length = sumWidths widths)
    (hb : ∀ b ∈ bs, b < 256) :
    (decodeRecord widths mk bs).map (fun t => encodeFields (fv t)) = Except.ok bs := by
  have hnot : ¬ bs.length < sumWidths widths := by omega
  simp only [decodeRecord, if_neg hnot, Except.map, hcoh,
    encodeFields_decodeFields widths bs hlen hb]

theorem decodeRecord_short {T : Type} (widths : List Nat) (mk : List Nat → T)
    (bs : List Nat) (h : bs.length < sumWidths widths) :
    decodeRecord widths mk bs = Except.error FsError.invalidMessage := by
  simp only [decodeRecord, if_pos h]

/-! ## The wire records

One Lean structure per Rust struct of filesystem_message.rs, fields in
declaration order.  Every machine-integer field is a `Nat`; the `Valid`
predicate of a record bounds each field by its Rust type
(`u64` below `256 ^ 8`, `u32` and `i32` below `256 ^ 4`, `u16` below
`256 ^ 2`).  The `i32` field `error` of OutHeader carries the
two's-complement bit pattern. -/

/-- File attributes record (struct Attr). -/
structure Attr where
  ino : Nat
  size : Nat
  blocks : Nat
  atime : Nat
  mtime : Nat
  ctime : Nat
  atimensec : Nat
  mtimensec : Nat
  ctimensec : Nat
  mode : Nat
  nlink : Nat
  uid : Nat
  gid : Nat
  rdev : Nat
  blksize : Nat
  flags : Nat
deriving DecidableEq

def Attr.Valid (a : Attr) : Prop :=
  a.ino < 256 ^ 8 ∧ a.size < 256 ^ 8 ∧ a.blocks < 256 ^ 8 ∧ a.atime < 256 ^ 8 ∧
  a.mtime < 256 ^ 8 ∧ a.ctime < 256 ^ 8 ∧ a.atimensec < 256 ^ 4 ∧
  a.mtimensec < 256 ^ 4 ∧ a.ctimensec < 256 ^ 4 ∧ a.mode < 256 ^ 4 ∧
  a.nlink < 256 ^ 4 ∧ a.uid < 256 ^ 4 ∧ a.gid < 256 ^ 4 ∧ a.rdev < 256 ^ 4 ∧
  a.blksize < 256 ^ 4 ∧ a.flags < 256 ^ 4

instance (a : Attr) : Decidable a.Valid := by
  unfold Attr.Valid
  infer_instance

def Attr.widths : List Nat := [8, 8, 8, 8, 8, 8, 4, 4, 4, 4, 4, 4, 4, 4, 4, 4]

def Attr.fieldVals (a : Attr) : List (Nat × Nat) :=
  [(8, a.ino), (8, a.size), (8, a.blocks), (8, a.atime), (8, a.mtime), (8, a.ctime),
   (4, a.atimensec), (4, a.mtimensec), (4, a.ctimensec), (4, a.mode), (4, a.nlink),
   (4, a.uid), (4, a.gid), (4, a.rdev), (4, a.blksize), (4, a.flags)]

def Attr.ofVals (vs : List Nat) : Attr :=
  { ino := vs.getD 0 0, size := vs.getD 1 0, blocks := vs.getD 2 0,
    atime := vs.getD 3 0, mtime := vs.getD 4 0, ctime := vs.getD 5 0,
    atimensec := vs.getD 6 0, mtimensec := vs.getD 7 0, ctimensec := vs.getD 8 0,
    mode := vs.getD 9 0, nlink := vs.getD 10 0, uid := vs.getD 11 0,
    gid := vs.getD 12 0, rdev := vs.getD 13 0, blksize := vs.getD 14 0,
    flags := vs.getD 15 0 }

def Attr.encode (a : Attr) : List Nat := encodeFields a.fieldVals

def Attr.decode : List Nat → Except FsError Attr :=
  decodeRecord Attr.widths Attr.ofVals

theorem attr_fieldVals_lt (a : Attr) (h : a.Valid) :
    ∀ p ∈ a.fieldVals, p.2 < 256 ^ p.1 := by
  obtain ⟨h1, h2, h3, h4, h5, h6, h7, h8, h9, h10, h11, h12, h13, h14, h15, h16⟩ := h
  intro p hp
  simp only [Attr.fieldVals, List.mem_cons, List.not_mem_nil, or_false] at hp
  rcases hp with rfl | rfl | rfl | rfl | rfl | rfl | rfl | rfl | rfl | rfl | rfl |
    rfl | rfl | rfl | rfl | rfl <;> assumption

theorem attr_decode_encode (a : Attr) (h : a.Valid) :
    Attr.decode (Attr.encode a) = Except.ok a :=
  decodeRecord_encodeFields Attr.widths Attr.ofVals a a.fieldVals rfl rfl
    (attr_fieldVals_lt a h)

theorem attr_ofVals_coh (bs : List Nat) :
    Attr.fieldVals (Attr.ofVals ((decodeFields Attr.widths bs).map Prod.snd))
      = decodeFields Attr.widths bs := by
  simp [Attr.fieldVals, Attr.ofVals, Attr.widths, decodeFields]

theorem attr_encode_decode (bs : List Nat) (hlen : bs.length = 88)
    (hb : ∀ b ∈ bs, b < 256) :
    (Attr.decode bs).map Attr.encode = Except.ok bs :=
  encodeFields_decodeRecord Attr.widths Attr.ofVals Attr.fieldVals bs
    (attr_ofVals_coh bs) (hlen.trans (by decide)) hb

/-- Request header record (struct InHeader). -/
structure InHeader where
  len : Nat
  opcode : Nat
  unique : Nat
  nodeid : Nat
  uid : Nat
  gid : Nat
  pid : Nat
  total_extlen : Nat
  padding : Nat
deriving DecidableEq

def InHeader.Valid (h : InHeader) : Prop :=
  h.len < 256 ^ 4 ∧ h.opcode < 256 ^ 4 ∧ h.unique < 256 ^ 8 ∧
  h.nodeid < 256 ^ 8 ∧ h.uid < 256 ^ 4 ∧ h.gid < 256 ^ 4 ∧ h.pid < 256 ^ 4 ∧
  h.total_extlen < 256 ^ 2 ∧ h.padding < 256 ^ 2

instance (h : InHeader) : Decidable h.Valid := by
  unfold InHeader.Valid
  infer_instance

def InHeader.widths : List Nat := [4, 4, 8, 8, 4, 4, 4, 2, 2]

def InHeader.fieldVals (h : InHeader) : List (Nat × Nat) :=
  [(4, h.len), (4, h.opcode), (8, h.unique), (8, h.nodeid), (4, h.uid),
   (4, h.gid), (4, h.pid), (2, h.total_extlen), (2, h.padding)]

def InHeader.ofVals (vs : List Nat) : InHeader :=
  { len := vs.getD 0 0, opcode := vs.getD 1 0, unique := vs.getD 2 0,
    nodeid := vs.getD 3 0, uid := vs.getD 4 0, gid := vs.getD 5 0,
    pid := vs.getD 6 0, total_extlen := vs.getD 7 0, padding := vs.getD 8 0 }

def InHeader.encode (h : InHeader) : List Nat := encodeFields h.fieldVals

def InHeader.decode : List Nat → Except FsError InHeader :=
  decodeRecord InHeader.widths InHeader.ofVals

theorem inHeader_fieldVals_lt (h : InHeader) (hv : h.Valid) :
    ∀ p ∈ h.fieldVals, p.2 < 256 ^ p.1 := by
  obtain ⟨h1, h2, h3, h4, h5, h6, h7, h8, h9⟩ := hv
  intro p hp
  simp only [InHeader.fieldVals, List.mem_cons, List.not_mem_nil, or_false] at hp
  rcases hp with rfl | rfl | rfl | rfl | rfl | rfl | rfl | rfl | rfl <;> assumption

theorem inHeader_decode_encode (h : InHeader) (hv : h.Valid) :
    InHeader.decode (InHeader.encode h) = Except.ok h :=
  decodeRecord_encodeFields InHeader.widths InHeader.ofVals h h.fieldVals rfl rfl
    (inHeader_fieldVals_lt h hv)

theorem inHeader_encode_decode (bs : List Nat) (hlen : bs.length = 40)
    (hb : ∀ b ∈ bs, b < 256) :
    (InHeader.decode bs).map InHeader.encode = Except.ok bs :=
  encodeFields_decodeRecord InHeader.widths InHeader.ofVals InHeader.fieldVals bs rfl
    (hlen.trans (by decide)) hb

/-- Reply header record (struct OutHeader). -/
structure OutHeader where
  len : Nat
  error : Nat
  unique : Nat
deriving DecidableEq

def OutHeader.Valid (h : OutHeader) : Prop :=
  h.len < 256 ^ 4 ∧ h.error < 256 ^ 4 ∧ h.unique < 256 ^ 8

instance (h : OutHeader) : Decidable h.Valid := by
  unfold OutHeader.Valid
  infer_instance

def OutHeader.widths : List Nat := [4, 4, 8]

def OutHeader.fieldVals (h : OutHeader) : List (Nat × Nat) :=
  [(4, h.len), (4, h.error), (8, h.unique)]

def OutHeader.ofVals (vs : List Nat) : OutHeader :=
  { len := vs.getD 0 0, error := vs.getD 1 0, unique := vs.getD 2 0 }

def OutHeader.encode (h : OutHeader) : List Nat := encodeFields h.fieldVals

def OutHeader.decode : List Nat → Except FsError OutHeader :=
  decodeRecord OutHeader.widths OutHeader.ofVals

theorem outHeader_fieldVals_lt (h : OutHeader) (hv : h.Valid) :
    ∀ p ∈ h.fieldVals, p.2 < 256 ^ p.1 := by
  obtain ⟨h1, h2, h3⟩ := hv
  intro p hp
  simp only [OutHeader.fieldVals, List.mem_cons, List.not_mem_nil, or_false] at hp
  rcases hp with rfl | rfl | rfl <;> assumption

theorem outHeader_decode_encode (h : OutHeader) (hv : h.Valid) :
    OutHeader.decode (OutHeader.encode h) = Except.ok h :=
  decodeRecord_encodeFields OutHeader.widths OutHeader.ofVals h h.fieldVals rfl rfl
    (outHeader_fieldVals_lt h hv)

theorem outHeader_encode_decode (bs : List Nat) (hlen : bs.length = 16)
    (hb : ∀ b ∈ bs, b < 256) :
    (OutHeader.decode bs).map OutHeader.encode = Except.ok bs :=
  encodeFields_decodeRecord OutHeader.widths OutHeader.ofVals OutHeader.fieldVals bs rfl
    (hlen.trans (by decide)) hb

/-- Init request body record (struct InitIn). -/
structure InitIn where
  major : Nat
  minor : Nat
  max_readahead : Nat
  flags : Nat
deriving DecidableEq

def InitIn.Valid (i : InitIn) : Prop :=
  i.major < 256 ^ 4 ∧ i.minor < 256 ^ 4 ∧ i.max_readahead < 256 ^ 4 ∧
  i.flags < 256 ^ 4

instance (i : InitIn) : Decidable i.Valid := by
  unfold InitIn.Valid
  infer_instance

def InitIn.widths : List Nat := [4, 4, 4, 4]

def InitIn.fieldVals (i : InitIn) : List (Nat × Nat) :=
  [(4, i.major), (4, i.minor), (4, i.max_readahead), (4, i.flags)]

def InitIn.ofVals (vs : List Nat) : InitIn :=
  { major := vs.getD 0 0, minor := vs.getD 1 0, max_readahead := vs.getD 2 0,
    flags := vs.getD 3 0 }

def InitIn.encode (i : InitIn) : List Nat := encodeFields i.fieldVals

def InitIn.decode : List Nat → Except FsError InitIn :=
  decodeRecord InitIn.widths InitIn.ofVals

theorem initIn_fieldVals_lt (i : InitIn) (hv : i.Valid) :
    ∀ p ∈ i.fieldVals, p.2 < 256 ^ p.1 := by
  obtain ⟨h1, h2, h3, h4⟩ := hv
  intro p hp
  simp only [InitIn.fieldVals, List.mem_cons, List.not_mem_nil, or_false] at hp
  rcases hp with rfl | rfl | rfl | rfl <;> assumption

theorem initIn_decode_encode (i : InitIn) (hv : i.Valid) :
    InitIn.decode (InitIn.encode i) = Except.ok i :=
  decodeRecord_encodeFields InitIn.widths InitIn.ofVals i i.fieldVals rfl rfl
    (initIn_fieldVals_lt i hv)

theorem initIn_encode_decode (bs : List Nat) (hlen : bs.length = 16)
    (hb : ∀ b ∈ bs, b < 256) :
    (InitIn.decode bs).map InitIn.encode = Except.ok bs :=
  encodeFields_decodeRecord InitIn.widths InitIn.ofVals InitIn.fieldVals bs rfl
    (hlen.trans (by decide)) hb

theorem length_eq_seven {α : Type} (l : List α) (h : l.length = 7) :
    ∃ a b c d e f g, l = [a, b, c, d, e, f, g] := by
  match l, h with
  | a :: b :: c :: d :: e :: f :: g :: rest, h =>
    have hr : rest.length = 0 := by
      simp only [List.length_cons] at h
      omega
    exact ⟨a, b, c, d, e, f, g, by rw [List.length_eq_zero.mp hr]⟩

/-- Init reply body record (struct InitOut); the field `unused` embeds the
Rust array `[u32; 7]` as a list whose length the `Valid` predicate pins to
seven. -/
structure InitOut where
  major : Nat
  minor : Nat
  max_readahead : Nat
  flags : Nat
  max_background : Nat
  congestion_threshold : Nat
  max_write : Nat
  time_gran : Nat
  max_pages : Nat
  map_alignment : Nat
  flags2 : Nat
  unused : List Nat
deriving DecidableEq

def InitOut.Valid (i : InitOut) : Prop :=
  i.major < 256 ^ 4 ∧ i.minor < 256 ^ 4 ∧ i.max_readahead < 256 ^ 4 ∧
  i.flags < 256 ^ 4 ∧ i.max_background < 256 ^ 2 ∧
  i.congestion_threshold < 256 ^ 2 ∧ i.max_write < 256 ^ 4 ∧
  i.time_gran < 256 ^ 4 ∧ i.max_pages < 256 ^ 2 ∧ i.map_alignment < 256 ^ 2 ∧
  i.flags2 < 256 ^ 4 ∧ i.unused.length = 7 ∧ ∀ u ∈ i.unused, u < 256 ^ 4

instance (i : InitOut) : Decidable i.Valid := by
  unfold InitOut.Valid
  infer_instance

def InitOut.widths : List Nat := [4, 4, 4, 4, 2, 2, 4, 4, 2, 2, 4, 4, 4, 4, 4, 4, 4, 4]

def InitOut.fieldVals (i : InitOut) : List (Nat × Nat) :=
  [(4, i.major), (4, i.minor), (4, i.max_readahead), (4, i.flags),
   (2, i.max_background), (2, i.congestion_threshold), (4, i.max_write),
   (4, i.time_gran), (2, i.max_pages), (2, i.map_alignment), (4, i.flags2)] ++
  i.unused.map (fun u => (4, u))

def InitOut.ofVals (vs : List Nat) : InitOut :=
  { major := vs.getD 0 0, minor := vs.getD 1 0, max_readahead := vs.getD 2 0,
    flags := vs.getD 3 0, max_background := vs.getD 4 0,
    congestion_threshold := vs.getD 5 0, max_write := vs.getD 6 0,
    time_gran := vs.getD 7 0, max_pages := vs.getD 8 0,
    map_alignment := vs.getD 9 0, flags2 := vs.getD 10 0,
    unused := [vs.getD 11 0, vs.getD 12 0, vs.getD 13 0, vs.getD 14 0,
               vs.getD 15 0, vs.getD 16 0, vs.getD 17 0] }

def InitOut.encode (i : InitOut) : List Nat := encodeFields i.fieldVals

def InitOut.decode : List Nat → Except FsError InitOut :=
  decodeRecord InitOut.widths InitOut.ofVals

theorem initOut_decode_encode (i : InitOut) (hv : i.Valid) :
    InitOut.decode (InitOut.encode i) = Except.ok i := by
  obtain ⟨major, minor, mra, fl, mb, ct, mw, tg, mp, mal, f2, unused⟩ := i
  obtain ⟨h1, h2, h3, h4, h5, h6, h7, h8, h9, h10, h11, hlen7, hu⟩ := hv
  obtain ⟨u0, u1, u2, u3, u4, u5, u6, rfl⟩ := length_eq_seven unused hlen7
  refine decodeRecord_encodeFields InitOut.widths InitOut.ofVals _ _ rfl rfl ?_
  intro p hp
  simp only [InitOut.fieldVals, List.map_cons, List.map_nil, List.cons_append,
    List.nil_append, List.mem_cons, List.not_mem_nil, or_false] at hp
  rcases hp with rfl | rfl | rfl | rfl | rfl | rfl | rfl | rfl | rfl | rfl | rfl |
    rfl | rfl | rfl | rfl | rfl | rfl | rfl
  · exact h1
  · exact h2
  · exact h3
  · exact h4
  · exact h5
  · exact h6
  · exact h7
  · exact h8
  · exact h9
  · exact h10
  · exact h11
  · exact hu u0 (by simp)
  · exact hu u1 (by simp)
  · exact hu u2 (by simp)
  · exact hu u3 (by simp)
  · exact hu u4 (by simp)
  · exact hu u5 (by simp)
  · exact hu u6 (by simp)

theorem initOut_ofVals_coh (bs : List Nat) :
    InitOut.fieldVals (InitOut.ofVals ((decodeFields InitOut.widths bs).map Prod.snd))
      = decodeFields InitOut.widths bs := by
  simp [InitOut.fieldVals, InitOut.ofVals, InitOut.widths, decodeFields]

theorem initOut_encode_decode (bs : List Nat) (hlen : bs.length = 64)
    (hb : ∀ b ∈ bs, b < 256) :
    (InitOut.decode bs).map InitOut.encode = Except.ok bs :=
  encodeFields_decodeRecord InitOut.widths InitOut.ofVals InitOut.fieldVals bs
    (initOut_ofVals_coh bs) (hlen.trans (by decide)) hb

/-- Lookup and Create reply entry record (struct EntryOut). -/
structure EntryOut where
  nodeid : Nat
  generation : Nat
  entry_valid : Nat
  attr_valid : Nat
  entry_valid_nsec : Nat
  attr_valid_nsec : Nat
  attr : Attr
deriving DecidableEq

def EntryOut.Valid (e : EntryOut) : Prop :=
  e.nodeid < 256 ^ 8 ∧ e.generation < 256 ^ 8 ∧ e.entry_valid < 256 ^ 8 ∧
  e.attr_valid < 256 ^ 8 ∧ e.entry_valid_nsec < 256 ^ 4 ∧
  e.attr_valid_nsec < 256 ^ 4 ∧ e.attr.Valid

instance (e : EntryOut) : Decidable e.Valid := by
  unfold EntryOut.Valid
  infer_instance

def EntryOut.widths : List Nat := [8, 8, 8, 8, 4, 4] ++ Attr.widths

def EntryOut.fieldVals (e : EntryOut) : List (Nat × Nat) :=
  [(8, e.nodeid), (8, e.generation), (8, e.entry_valid), (8, e.attr_valid),
   (4, e.entry_valid_nsec), (4, e.attr_valid_nsec)] ++ Attr.fieldVals e.attr

def EntryOut.ofVals (vs : List Nat) : EntryOut :=
  { nodeid := vs.getD 0 0, generation := vs.getD 1 0, entry_valid := vs.getD 2 0,
    attr_valid := vs.getD 3 0, entry_valid_nsec := vs.getD 4 0,
    attr_valid_nsec := vs.getD 5 0, attr := Attr.ofVals (vs.drop 6) }

def EntryOut.encode (e : EntryOut) : List Nat := encodeFields e.fieldVals

def EntryOut.decode : List Nat → Except FsError EntryOut :=
  decodeRecord EntryOut.widths EntryOut.ofVals

theorem entryOut_fieldVals_lt (e : EntryOut) (hv : e.Valid) :
    ∀ p ∈ e.fieldVals, p.2 < 256 ^ p.1 := by
  obtain ⟨h1, h2, h3, h4, h5, h6, hattr⟩ := hv
  intro p hp
  simp only [EntryOut.fieldVals, List.mem_append, List.mem_cons, List.not_mem_nil,
    or_false] at hp
  rcases hp with (rfl | rfl | rfl | rfl | rfl | rfl) | hp
  · exact h1
  · exact h2
  · exact h3
  · exact h4
  · exact h5
  · exact h6
  · exact attr_fieldVals_lt e.attr hattr p hp

theorem entryOut_decode_encode (e : EntryOut) (hv : e.Valid) :
    EntryOut.decode (EntryOut.encode e) = Except.ok e :=
  decodeRecord_encodeFields EntryOut.widths EntryOut.ofVals e e.fieldVals rfl rfl
    (entryOut_fieldVals_lt e hv)

theorem entryOut_ofVals_coh (bs : List Nat) :
    EntryOut.fieldVals (EntryOut.ofVals ((decodeFields EntryOut.widths bs).map Prod.snd))
      = decodeFields EntryOut.widths bs := by
  simp [EntryOut.fieldVals, EntryOut.ofVals, EntryOut.widths, Attr.fieldVals,
    Attr.ofVals, Attr.widths, decodeFields]

theorem entryOut_encode_decode (bs : List Nat) (hlen : bs.length = 128)
    (hb : ∀ b ∈ bs, b < 256) :
    (EntryOut.decode bs).map EntryOut.encode = Except.ok bs :=
  encodeFields_decodeRecord EntryOut.widths EntryOut.ofVals EntryOut.fieldVals bs
    (entryOut_ofVals_coh bs) (hlen.trans (by decide)) hb

/-- Getattr and Setattr reply record (struct AttrOut). -/
structure AttrOut where
  attr_valid : Nat
  attr_valid_nsec : Nat
  dummy : Nat
  attr : Attr
deriving DecidableEq

def AttrOut.Valid (a : AttrOut) : Prop :=
  a.attr_valid < 256 ^ 8 ∧ a.attr_valid_nsec < 256 ^ 4 ∧ a.dummy < 256 ^ 4 ∧
  a.attr.Valid

instance (a : AttrOut) : Decidable a.Valid := by
  unfold AttrOut.Valid
  infer_instance

def AttrOut.widths : List Nat := [8, 4, 4] ++ Attr.widths

def AttrOut.fieldVals (a : AttrOut) : List (Nat × Nat) :=
  [(8, a.attr_valid), (4, a.attr_valid_nsec), (4, a.dummy)] ++ Attr.fieldVals a.attr

def AttrOut.ofVals (vs : List Nat) : AttrOut :=
  { attr_valid := vs.getD 0 0, attr_valid_nsec := vs.getD 1 0,
    dummy := vs.getD 2 0, attr := Attr.ofVals (vs.drop 3) }

def AttrOut.encode (a : AttrOut) : List Nat := encodeFields a.fieldVals

def AttrOut.decode : List Nat → Except FsError AttrOut :=
  decodeRecord AttrOut.widths AttrOut.ofVals

theorem attrOut_fieldVals_lt (a : AttrOut) (hv : a.Valid) :
    ∀ p ∈ a.fieldVals, p.2 < 256 ^ p.1 := by
  obtain ⟨h1, h2, h3, hattr⟩ := hv
  intro p hp
  simp only [AttrOut.fieldVals, List.mem_append, List.mem_cons, List.not_mem_nil,
    or_false] at hp
  rcases hp with (rfl | rfl | rfl) | hp
  · exact h1
  · exact h2
  · exact h3
  · exact attr_fieldVals_lt a.attr hattr p hp

theorem attrOut_decode_encode (a : AttrOut) (hv : a.Valid) :
    AttrOut.decode (AttrOut.encode a) = Except.ok a :=
  decodeRecord_encodeFields AttrOut.widths AttrOut.ofVals a a.fieldVals rfl rfl
    (attrOut_fieldVals_lt a hv)

theorem attrOut_ofVals_coh (bs : List Nat) :
    AttrOut.fieldVals (AttrOut.ofVals ((decodeFields AttrOut.widths bs).map Prod.snd))
      = decodeFields AttrOut.widths bs := by
  simp [AttrOut.fieldVals, AttrOut.ofVals, AttrOut.widths, Attr.fieldVals,
    Attr.ofVals, Attr.widths, decodeFields]

theorem attrOut_encode_decode (bs : List Nat) (hlen : bs.length = 104)
    (hb : ∀ b ∈ bs, b < 256) :
    (AttrOut.decode bs).map AttrOut.encode = Except.ok bs :=
  encodeFields_decodeRecord AttrOut.widths AttrOut.ofVals AttrOut.fieldVals bs
    (attrOut_ofVals_coh bs) (hlen.trans (by decide)) hb

/-- Create request body record (struct CreateIn). -/
structure CreateIn where
  flags : Nat
  mode : Nat
  umask : Nat
  open_flags : Nat
deriving DecidableEq

def CreateIn.Valid (c : CreateIn) : Prop :=
  c.flags < 256 ^ 4 ∧ c.mode < 256 ^ 4 ∧ c.umask < 256 ^ 4 ∧
  c.open_flags < 256 ^ 4

instance (c : CreateIn) : Decidable c.Valid := by
  unfold CreateIn.Valid
  infer_instance

def CreateIn.widths : List Nat := [4, 4, 4, 4]

def CreateIn.fieldVals (c : CreateIn) : List (Nat × Nat) :=
  [(4, c.flags), (4, c.mode), (4, c.umask), (4, c.open_flags)]

def CreateIn.ofVals (vs : List Nat) : CreateIn :=
  { flags := vs.getD 0 0, mode := vs.getD 1 0, umask := vs.getD 2 0,
    open_flags := vs.getD 3 0 }

def CreateIn.encode (c : CreateIn) : List Nat := encodeFields c.fieldVals

def CreateIn.decode : List Nat → Except FsError CreateIn :=
  decodeRecord CreateIn.widths CreateIn.ofVals

theorem createIn_fieldVals_lt (c : CreateIn) (hv : c.Valid) :
    ∀ p ∈ c.fieldVals, p.2 < 256 ^ p.1 := by
  obtain ⟨h1, h2, h3, h4⟩ := hv
  intro p hp
  simp only [CreateIn.fieldVals, List.mem_cons, List.not_mem_nil, or_false] at hp
  rcases hp with rfl | rfl | rfl | rfl <;> assumption

theorem createIn_decode_encode (c : CreateIn) (hv : c.Valid) :
    CreateIn.decode (CreateIn.encode c) = Except.ok c :=
  decodeRecord_encodeFields CreateIn.widths CreateIn.ofVals c c.fieldVals rfl rfl
    (createIn_fieldVals_lt c hv)

theorem createIn_encode_decode (bs : List Nat) (hlen : bs.length = 16)
    (hb : ∀ b ∈ bs, b < 256) :
    (CreateIn.decode bs).map CreateIn.encode = Except.ok bs :=
  encodeFields_decodeRecord CreateIn.widths CreateIn.ofVals CreateIn.fieldVals bs rfl
    (hlen.trans (by decide)) hb

/-- Open request body record (struct OpenIn). -/
structure OpenIn where
  flags : Nat
  open_flags : Nat
deriving DecidableEq

def OpenIn.Valid (o : OpenIn) : Prop :=
  o.flags < 256 ^ 4 ∧ o.open_flags < 256 ^ 4

instance (o : OpenIn) : Decidable o.Valid := by
  unfold OpenIn.Valid
  infer_instance

def OpenIn.widths : List Nat := [4, 4]

def OpenIn.fieldVals (o : OpenIn) : List (Nat × Nat) :=
  [(4, o.flags), (4, o.open_flags)]

def OpenIn.ofVals (vs : List Nat) : OpenIn :=
  { flags := vs.getD 0 0, open_flags := vs.getD 1 0 }

def OpenIn.encode (o : OpenIn) : List Nat := encodeFields o.fieldVals

def OpenIn.decode : List Nat → Except FsError OpenIn :=
  decodeRecord OpenIn.widths OpenIn.ofVals

theorem openIn_fieldVals_lt (o : OpenIn) (hv : o.Valid) :
    ∀ p ∈ o.fieldVals, p.2 < 256 ^ p.1 := by
  obtain ⟨h1, h2⟩ := hv
  intro p hp
  simp only [OpenIn.fieldVals, List.mem_cons, List.not_mem_nil, or_false] at hp
  rcases hp with rfl | rfl <;> assumption

theorem openIn_decode_encode (o : OpenIn) (hv : o.Valid) :
    OpenIn.decode (OpenIn.encode o) = Except.ok o :=
  decodeRecord_encodeFields OpenIn.widths OpenIn.ofVals o o.fieldVals rfl rfl
    (openIn_fieldVals_lt o hv)

theorem openIn_encode_decode (bs : List Nat) (hlen : bs.length = 8)
    (hb : ∀ b ∈ bs, b < 256) :
    (OpenIn.decode bs).map OpenIn.encode = Except.ok bs :=
  encodeFields_decodeRecord OpenIn.widths OpenIn.ofVals OpenIn.fieldVals bs rfl
    (hlen.trans (by decide)) hb

/-- Open reply record (struct OpenOut). -/
structure OpenOut where
  fh : Nat
  open_flags : Nat
  padding : Nat
deriving DecidableEq

def OpenOut.Valid (o : OpenOut) : Prop :=
  o.fh < 256 ^ 8 ∧ o.open_flags < 256 ^ 4 ∧ o.padding < 256 ^ 4

instance (o : OpenOut) : Decidable o.Valid := by
  unfold OpenOut.Valid
  infer_instance

def OpenOut.widths : List Nat := [8, 4, 4]

def OpenOut.fieldVals (o : OpenOut) : List (Nat × Nat) :=
  [(8, o.fh), (4, o.open_flags), (4, o.padding)]

def OpenOut.ofVals (vs : List Nat) : OpenOut :=
  { fh := vs.getD 0 0, open_flags := vs.getD 1 0, padding := vs.getD 2 0 }

def OpenOut.encode (o : OpenOut) : List Nat := encodeFields o.fieldVals

def OpenOut.decode : List Nat → Except FsError OpenOut :=
  decodeRecord OpenOut.widths OpenOut.ofVals

theorem openOut_fieldVals_lt (o : OpenOut) (hv : o.Valid) :
    ∀ p ∈ o.fieldVals, p.2 < 256 ^ p.1 := by
  obtain ⟨h1, h2, h3⟩ := hv
  intro p hp
  simp only [OpenOut.fieldVals, List.mem_cons, List.not_mem_nil, or_false] at hp
  rcases hp with rfl | rfl | rfl <;> assumption

theorem openOut_decode_encode (o : OpenOut) (hv : o.Valid) :
    OpenOut.decode (OpenOut.encode o) = Except.ok o :=
  decodeRecord_encodeFields OpenOut.widths OpenOut.ofVals o o.fieldVals rfl rfl
    (openOut_fieldVals_lt o hv)

theorem openOut_encode_decode (bs : List Nat) (hlen : bs.length = 16)
    (hb : ∀ b ∈ bs, b < 256) :
    (OpenOut.decode bs).map OpenOut.encode = Except.ok bs :=
  encodeFields_decodeRecord OpenOut.widths OpenOut.ofVals OpenOut.fieldVals bs rfl
    (hlen.trans (by decide)) hb

/-- Read request body record (struct ReadIn). -/
structure ReadIn where
  fh : Nat
  offset : Nat
  size : Nat
  read_flags : Nat
  lock_owner : Nat
  flags : Nat
  padding : Nat
deriving DecidableEq

def ReadIn.Valid (r : ReadIn) : Prop :=
  r.fh < 256 ^ 8 ∧ r.offset < 256 ^ 8 ∧ r.size < 256 ^ 4 ∧
  r.read_flags < 256 ^ 4 ∧ r.lock_owner < 256 ^ 8 ∧ r.flags < 256 ^ 4 ∧
  r.padding < 256 ^ 4

instance (r : ReadIn) : Decidable r.Valid := by
  unfold ReadIn.Valid
  infer_instance

def ReadIn.widths : List Nat := [8, 8, 4, 4, 8, 4, 4]

def ReadIn.fieldVals (r : ReadIn) : List (Nat × Nat) :=
  [(8, r.fh), (8, r.offset), (4, r.size), (4, r.read_flags), (8, r.lock_owner),
   (4, r.flags), (4, r.padding)]

def ReadIn.ofVals (vs : List Nat) : ReadIn :=
  { fh := vs.getD 0 0, offset := vs.getD 1 0, size := vs.getD 2 0,
    read_flags := vs.getD 3 0, lock_owner := vs.getD 4 0, flags := vs.getD 5 0,
    padding := vs.getD 6 0 }

def ReadIn.encode (r : ReadIn) : List Nat := encodeFields r.fieldVals

def ReadIn.decode : List Nat → Except FsError ReadIn :=
  decodeRecord ReadIn.widths ReadIn.ofVals

theorem readIn_fieldVals_lt (r : ReadIn) (hv : r.Valid) :
    ∀ p ∈ r.fieldVals, p.2 < 256 ^ p.1 := by
  obtain ⟨h1, h2, h3, h4, h5, h6, h7⟩ := hv
  intro p hp
  simp only [ReadIn.fieldVals, List.mem_cons, List.not_mem_nil, or_false] at hp
  rcases hp with rfl | rfl | rfl | rfl | rfl | rfl | rfl <;> assumption

theorem readIn_decode_encode (r : ReadIn) (hv : r.Valid) :
    ReadIn.decode (ReadIn.encode r) = Except.ok r :=
  decodeRecord_encodeFields ReadIn.widths ReadIn.ofVals r r.fieldVals rfl rfl
    (readIn_fieldVals_lt r hv)

theorem readIn_encode_decode (bs : List Nat) (hlen : bs.length = 40)
    (hb : ∀ b ∈ bs, b < 256) :
    (ReadIn.decode bs).map ReadIn.encode = Except.ok bs :=
  encodeFields_decodeRecord ReadIn.widths ReadIn.ofVals ReadIn.fieldVals bs rfl
    (hlen.trans (by decide)) hb

/-- Write request body record (struct WriteIn). -/
structure WriteIn where
  fh : Nat
  offset : Nat
  size : Nat
  write_flags : Nat
  lock_owner : Nat
  flags : Nat
  padding : Nat
deriving DecidableEq

def WriteIn.Valid (w : WriteIn) : Prop :=
  w.fh < 256 ^ 8 ∧ w.offset < 256 ^ 8 ∧ w.size < 256 ^ 4 ∧
  w.write_flags < 256 ^ 4 ∧ w.lock_owner < 256 ^ 8 ∧ w.flags < 256 ^ 4 ∧
  w.padding < 256 ^ 4

instance (w : WriteIn) : Decidable w.Valid := by
  unfold WriteIn.Valid
  infer_instance

def WriteIn.widths : List Nat := [8, 8, 4, 4, 8, 4, 4]

def WriteIn.fieldVals (w : WriteIn) : List (Nat × Nat) :=
  [(8, w.fh), (8, w.offset), (4, w.size), (4, w.write_flags), (8, w.lock_owner),
   (4, w.flags), (4, w.padding)]

def WriteIn.ofVals (vs : List Nat) : WriteIn :=
  { fh := vs.getD 0 0, offset := vs.getD 1 0, size := vs.getD 2 0,
    write_flags := vs.getD 3 0, lock_owner := vs.getD 4 0, flags := vs.getD 5 0,
    padding := vs.getD 6 0 }

def WriteIn.encode (w : WriteIn) : List Nat := encodeFields w.fieldVals

def WriteIn.decode : List Nat → Except FsError WriteIn :=
  decodeRecord WriteIn.widths WriteIn.ofVals

theorem writeIn_fieldVals_lt (w : WriteIn) (hv : w.Valid) :
    ∀ p ∈ w.fieldVals, p.2 < 256 ^ p.1 := by
  obtain ⟨h1, h2, h3, h4, h5, h6, h7⟩ := hv
  intro p hp
  simp only [WriteIn.fieldVals, List.mem_cons, List.not_mem_nil, or_false] at hp
  rcases hp with rfl | rfl | rfl | rfl | rfl | rfl | rfl <;> assumption

theorem writeIn_decode_encode (w : WriteIn) (hv : w.Valid) :
    WriteIn.decode (WriteIn.encode w) = Except.ok w :=
  decodeRecord_encodeFields WriteIn.widths WriteIn.ofVals w w.fieldVals rfl rfl
    (writeIn_fieldVals_lt w hv)

theorem writeIn_encode_decode (bs : List Nat) (hlen : bs.length = 40)
    (hb : ∀ b ∈ bs, b < 256) :
    (WriteIn.decode bs).map WriteIn.encode = Except.ok bs :=
  encodeFields_decodeRecord WriteIn.widths WriteIn.ofVals WriteIn.fieldVals bs rfl
    (hlen.trans (by decide)) hb

/-- Write reply record (struct WriteOut). -/
structure WriteOut where
  size : Nat
  padding : Nat
deriving DecidableEq

def WriteOut.Valid (w : WriteOut) : Prop :=
  w.size < 256 ^ 4 ∧ w.padding < 256 ^ 4

instance (w : WriteOut) : Decidable w.Valid := by
  unfold WriteOut.Valid
  infer_instance

def WriteOut.widths : List Nat := [4, 4]

def WriteOut.fieldVals (w : WriteOut) : List (Nat × Nat) :=
  [(4, w.size), (4, w.padding)]

def WriteOut.ofVals (vs : List Nat) : WriteOut :=
  { size := vs.getD 0 0, padding := vs.getD 1 0 }

def WriteOut.encode (w : WriteOut) : List Nat := encodeFields w.fieldVals

def WriteOut.decode : List Nat → Except FsError WriteOut :=
  decodeRecord WriteOut.widths WriteOut.ofVals

theorem writeOut_fieldVals_lt (w : WriteOut) (hv : w.Valid) :
    ∀ p ∈ w.fieldVals, p.2 < 256 ^ p.1 := by
  obtain ⟨h1, h2⟩ := hv
  intro p hp
  simp only [WriteOut.fieldVals, List.mem_cons, List.not_mem_nil, or_false] at hp
  rcases hp with rfl | rfl <;> assumption

theorem writeOut_decode_encode (w : WriteOut) (hv : w.Valid) :
    WriteOut.decode (WriteOut.encode w) = Except.ok w :=
  decodeRecord_encodeFields WriteOut.widths WriteOut.ofVals w w.fieldVals rfl rfl
    (writeOut_fieldVals_lt w hv)

theorem writeOut_encode_decode (bs : List Nat) (hlen : bs.length = 8)
    (hb : ∀ b ∈ bs, b < 256) :
    (WriteOut.decode bs).map WriteOut.encode = Except.ok bs :=
  encodeFields_decodeRecord WriteOut.widths WriteOut.ofVals WriteOut.fieldVals bs rfl
    (hlen.trans (by decide)) hb

/-- Modelled from the spec: the Forget request body record ForgetIn.  Neither
this record nor the Forget handler appears among the verified source files
(filesystem_message.rs is the only virtiofs file present); the record follows
the row of the section 6 table word for word: a single little-endian field
nlookup of type u64, total size 8. -/
structure ForgetIn where
  nlookup : Nat
deriving DecidableEq

def ForgetIn.Valid (f : ForgetIn) : Prop := f.nlookup < 256 ^ 8

instance (f : ForgetIn) : Decidable f.Valid := by
  unfold ForgetIn.Valid
  infer_instance

def forgetInFieldTys : List FieldTy := [u64ty]

def ForgetIn.widths : List Nat := [8]

def ForgetIn.fieldVals (f : ForgetIn) : List (Nat × Nat) := [(8, f.nlookup)]

def ForgetIn.ofVals (vs : List Nat) : ForgetIn := { nlookup := vs.getD 0 0 }

def ForgetIn.encode (f : ForgetIn) : List Nat := encodeFields f.fieldVals

def ForgetIn.decode : List Nat → Except FsError ForgetIn :=
  decodeRecord ForgetIn.widths ForgetIn.ofVals

theorem forgetIn_fieldVals_lt (f : ForgetIn) (hv : f.Valid) :
    ∀ p ∈ f.fieldVals, p.2 < 256 ^ p.1 := by
  intro p hp
  simp only [ForgetIn.fieldVals, List.mem_cons, List.not_mem_nil, or_false] at hp
  rcases hp with rfl
  exact hv

theorem forgetIn_decode_encode (f : ForgetIn) (hv : f.Valid) :
    ForgetIn.decode (ForgetIn.encode f) = Except.ok f :=
  decodeRecord_encodeFields ForgetIn.widths ForgetIn.ofVals f f.fieldVals rfl rfl
    (forgetIn_fieldVals_lt f hv)

theorem forgetIn_encode_decode (bs : List Nat) (hlen : bs.length = 8)
    (hb : ∀ b ∈ bs, b < 256) :
    (ForgetIn.decode bs).map ForgetIn.encode = Except.ok bs :=
  encodeFields_decodeRecord ForgetIn.widths ForgetIn.ofVals ForgetIn.fieldVals bs rfl
    (hlen.trans (by decide)) hb

/-! ## Opcode decoding -/

/-- Opcode of a filesystem call (enum Opcode). -/
inductive Opcode where
  | Lookup
  | Forget
  | Getattr
  | Setattr
  | Unlink
  | Open
  | Read
  | Write
  | Release
  | Flush
  | Init
  | Create
  | Destroy
deriving DecidableEq

/-- Opcode decoder (impl TryFrom of u32 for Opcode): the thirteen recognized
values succeed, everything else is an error value, never a panic. -/
def Opcode.tryFrom (value : Nat) : Except FsError Opcode :=
  match value with
  | 1 => Except.ok Opcode.Lookup
  | 2 => Except.ok Opcode.Forget
  | 3 => Except.ok Opcode.Getattr
  | 4 => Except.ok Opcode.Setattr
  | 10 => Except.ok Opcode.Unlink
  | 14 => Except.ok Opcode.Open
  | 15 => Except.ok Opcode.Read
  | 16 => Except.ok Opcode.Write
  | 18 => Except.ok Opcode.Release
  | 25 => Except.ok Opcode.Flush
  | 26 => Except.ok Opcode.Init
  | 35 => Except.ok Opcode.Create
  | 38 => Except.ok Opcode.Destroy
  | _ => Except.error FsError.unsupportedOpcode

/-- The opcode values the decoder recognizes. -/
def recognizedOpcodes : List Nat := [1, 2, 3, 4, 10, 14, 15, 16, 18, 25, 26, 35, 38]

/-! ## Spec-modelled handler fragments

The per-opcode handlers live in filesystem.rs, which is not among the
verified source files; the three fragments below are modelled from the design
document and are used only by the claims about those handlers. -/

/-- Modelled from the spec: the server protocol version pair (7.32). -/
def KERNEL_VERSION : Nat := 7

/-- Modelled from the spec: the server minor protocol version. -/
def KERNEL_MINOR_VERSION : Nat := 32

/-- Modelled from the spec: the handshake part of the filesystem state
machine state (filesystem.rs is not among the verified source files):
whether an Init has completed. -/
structure ServerState where
  initDone : Bool
deriving DecidableEq

/-- Modelled from the spec (section 4.6, Init; filesystem.rs is not among
the verified source files): reject a client major below 7 with a protocol
error, otherwise negotiate the version pair capped at 7.32, echo
max_readahead, mask the flags with the supported mask and fill the remaining
fields with the fixed values of the design document.  Repeated Inits are
accepted idempotently. -/
def handleInit (supportedMask : Nat) (st : ServerState) (r : InitIn) :
    ServerState × Except FsError InitOut :=
  if r.major < KERNEL_VERSION then
    (st, Except.error FsError.protocolError)
  else
    ({ initDone := true },
     Except.ok
       { major := KERNEL_VERSION, minor := min r.minor KERNEL_MINOR_VERSION,
         max_readahead := r.max_readahead,
         flags := r.flags &&& supportedMask,
         max_background := 0, congestion_threshold := 0,
         max_write := 1048576, time_gran := 1, max_pages := 256,
         map_alignment := 0, flags2 := 0,
         unused := List.replicate 7 0 })

/-- Modelled from the spec (section 4.6, Write; filesystem.rs is not among
the verified source files): the state of an open writer handle, an
append-only stream with a running write offset. -/
structure WriterHandle where
  offset : Nat
  data : List Nat
deriving DecidableEq

/-- Modelled from the spec (section 4.6, Write): when the request offset
equals the running offset the payload is appended and the offset advances by
size; any other offset is rejected with InvalidArgument (EINVAL) and the
handle is unchanged. -/
def handleWrite (h : WriterHandle) (w : WriteIn) (bytes : List Nat) :
    WriterHandle × Except FsError WriteOut :=
  if w.offset = h.offset then
    ({ offset := h.offset + w.size, data := h.data ++ bytes },
     Except.ok { size := w.size, padding := 0 })
  else
    (h, Except.error FsError.invalidArgument)

/-- Modelled from the spec (section 4.5; the attribute synthesizer of
filesystem.rs is not among the verified source files): backend metadata as
the synthesizer consumes it: content length, optional last-modified time as
whole seconds plus nanoseconds, and whether the entry is a directory. -/
structure Metadata where
  contentLength : Nat
  lastModified : Option (Nat × Nat)
  isDir : Bool
deriving DecidableEq

/-- Modelled from the spec (section 4.5): synthesize the FUSE Attr record
from backend metadata; directories report size zero, mode 0o40755 and two
links, files report the content length, mode 0o100644 and one link; the
three time fields all carry the last-modified time or zero. -/
def synthesizeAttr (nodeid : Nat) (m : Metadata) : Attr :=
  let size := if m.isDir then 0 else m.contentLength
  let secs := (m.lastModified.getD (0, 0)).1
  let nsecs := (m.lastModified.getD (0, 0)).2
  { ino := nodeid, size := size, blocks := (size + 511) / 512,
    atime := secs, mtime := secs, ctime := secs,
    atimensec := nsecs, mtimensec := nsecs, ctimensec := nsecs,
    mode := if m.isDir then 0o40755 else 0o100644,
    nlink := if m.isDir then 2 else 1,
    uid := 0, gid := 0, rdev := 0, blksize := 4096, flags := 0 }

/-- Modelled from the spec (section 4.6, Forget; filesystem.rs is not among
the verified source files): the Forget handler parses its request body as a
ForgetIn record. -/
def parseForgetBody (bs : List Nat) : Except FsError ForgetIn := ForgetIn.decode bs

/-! ## Byte lengths of the encodings -/

theorem attr_encode_length (a : Attr) : a.encode.length = 88 := by
  simp [Attr.encode, Attr.fieldVals, sumWidths]

theorem inHeader_encode_length (h : InHeader) : h.encode.length = 40 := by
  simp [InHeader.encode, InHeader.fieldVals, sumWidths]

theorem outHeader_encode_length (h : OutHeader) : h.encode.length = 16 := by
  simp [OutHeader.encode, OutHeader.fieldVals, sumWidths]

theorem initIn_encode_length (i : InitIn) : i.encode.length = 16 := by
  simp [InitIn.encode, InitIn.fieldVals, sumWidths]

theorem initOut_encode_length (i : InitOut) (h7 : i.unused.length = 7) :
    i.encode.length = 64 := by
  obtain ⟨u0, u1, u2, u3, u4, u5, u6, hu⟩ := length_eq_seven i.unused h7
  simp [InitOut.encode, InitOut.fieldVals, hu, sumWidths]

theorem entryOut_encode_length (e : EntryOut) : e.encode.length = 128 := by
  simp [EntryOut.encode, EntryOut.fieldVals, Attr.fieldVals, sumWidths]

theorem attrOut_encode_length (a : AttrOut) : a.encode.length = 104 := by
  simp [AttrOut.encode, AttrOut.fieldVals, Attr.fieldVals, sumWidths]

theorem createIn_encode_length (c : CreateIn) : c.encode.length = 16 := by
  simp [CreateIn.encode, CreateIn.fieldVals, sumWidths]

theorem openIn_encode_length (o : OpenIn) : o.encode.length = 8 := by
  simp [OpenIn.encode, OpenIn.fieldVals, sumWidths]

theorem openOut_encode_length (o : OpenOut) : o.encode.length = 16 := by
  simp [OpenOut.encode, OpenOut.fieldVals, sumWidths]

theorem readIn_encode_length (r : ReadIn) : r.encode.length = 40 := by
  simp [ReadIn.encode, ReadIn.fieldVals, sumWidths]

theorem writeIn_encode_length (w : WriteIn) : w.encode.length = 40 := by
  simp [WriteIn.encode, WriteIn.fieldVals, sumWidths]

theorem writeOut_encode_length (w : WriteOut) : w.encode.length = 8 := by
  simp [WriteOut.encode, WriteOut.fieldVals, sumWidths]

/-! ## Derived Default values

Rust derive(Default) on these structs fills every field with the default of
its type: zero for every machine integer and an array of zeros for the
`[u32; 7]` field. -/

def Attr.default : Attr :=
  { ino := 0, size := 0, blocks := 0, atime := 0, mtime := 0, ctime := 0,
    atimensec := 0, mtimensec := 0, ctimensec := 0, mode := 0, nlink := 0,
    uid := 0, gid := 0, rdev := 0, blksize := 0, flags := 0 }

def InHeader.default : InHeader :=
  { len := 0, opcode := 0, unique := 0, nodeid := 0, uid := 0, gid := 0,
    pid := 0, total_extlen := 0, padding := 0 }

def OutHeader.default : OutHeader := { len := 0, error := 0, unique := 0 }

def InitIn.default : InitIn :=
  { major := 0, minor := 0, max_readahead := 0, flags := 0 }

def InitOut.default : InitOut :=
  { major := 0, minor := 0, max_readahead := 0, flags := 0,
    max_background := 0, congestion_threshold := 0, max_write := 0,
    time_gran := 0, max_pages := 0, map_alignment := 0, flags2 := 0,
    unused := List.replicate 7 0 }

def EntryOut.default : EntryOut :=
  { nodeid := 0, generation := 0, entry_valid := 0, attr_valid := 0,
    entry_valid_nsec := 0, attr_valid_nsec := 0, attr := Attr.default }

def AttrOut.default : AttrOut :=
  { attr_valid := 0, attr_valid_nsec := 0, dummy := 0, attr := Attr.default }

def CreateIn.default : CreateIn :=
  { flags := 0, mode := 0, umask := 0, open_flags := 0 }

def OpenIn.default : OpenIn := { flags := 0, open_flags := 0 }

def OpenOut.default : OpenOut := { fh := 0, open_flags := 0, padding := 0 }

def ReadIn.default : ReadIn :=
  { fh := 0, offset := 0, size := 0, read_flags := 0, lock_owner := 0,
    flags := 0, padding := 0 }

def WriteIn.default : WriteIn :=
  { fh := 0, offset := 0, size := 0, write_flags := 0, lock_owner := 0,
    flags := 0, padding := 0 }

def WriteOut.default : WriteOut := { size := 0, padding := 0 }

/-! ## The claims -/

/-- C1: the sizes of the wire record structs under C layout, with the fields
in declaration order, match the section 6 table exactly: Attr 88, InHeader
40, OutHeader 16, InitIn 16, InitOut 64, EntryOut 128, AttrOut 104, CreateIn
16, OpenIn 8, OpenOut 16, ReadIn 40, WriteIn 40, WriteOut 8. -/
theorem wire_record_sizes_match :
    reprCSize attrFieldTys = 88 ∧ reprCSize inHeaderFieldTys = 40 ∧
    reprCSize outHeaderFieldTys = 16 ∧ reprCSize initInFieldTys = 16 ∧
    reprCSize initOutFieldTys = 64 ∧ reprCSize entryOutFieldTys = 128 ∧
    reprCSize attrOutFieldTys = 104 ∧ reprCSize createInFieldTys = 16 ∧
    reprCSize openInFieldTys = 8 ∧ reprCSize openOutFieldTys = 16 ∧
    reprCSize readInFieldTys = 40 ∧ reprCSize writeInFieldTys = 40 ∧
    reprCSize writeOutFieldTys = 8 := by
  decide

/-- C2: opcode decoding succeeds exactly on the thirteen values 1, 2, 3, 4,
10, 14, 15, 16, 18, 25, 26, 35, 38, mapping them respectively to Lookup,
Forget, Getattr, Setattr, Unlink, Open, Read, Write, Release, Flush, Init,
Create, Destroy; every other u32 value decodes to an error value rather than
a panic or termination. -/
theorem opcode_decode_exact :
    (Opcode.tryFrom 1 = Except.ok Opcode.Lookup ∧
     Opcode.tryFrom 2 = Except.ok Opcode.Forget ∧
     Opcode.tryFrom 3 = Except.ok Opcode.Getattr ∧
     Opcode.tryFrom 4 = Except.ok Opcode.Setattr ∧
     Opcode.tryFrom 10 = Except.ok Opcode.Unlink ∧
     Opcode.tryFrom 14 = Except.ok Opcode.Open ∧
     Opcode.tryFrom 15 = Except.ok Opcode.Read ∧
     Opcode.tryFrom 16 = Except.ok Opcode.Write ∧
     Opcode.tryFrom 18 = Except.ok Opcode.Release ∧
     Opcode.tryFrom 25 = Except.ok Opcode.Flush ∧
     Opcode.tryFrom 26 = Except.ok Opcode.Init ∧
     Opcode.tryFrom 35 = Except.ok Opcode.Create ∧
     Opcode.tryFrom 38 = Except.ok Opcode.Destroy) ∧
    ∀ v : Nat, v < 2 ^ 32 → v ∉ recognizedOpcodes →
      Opcode.tryFrom v = Except.error FsError.unsupportedOpcode := by
  refine ⟨⟨rfl, rfl, rfl, rfl, rfl, rfl, rfl, rfl, rfl, rfl, rfl, rfl, rfl⟩, ?_⟩
  intro v hlt hnot
  unfold Opcode.tryFrom
  split <;> simp_all [recognizedOpcodes]

/-- Witness for C2: the unrecognized value 5 satisfies the hypotheses and
decodes to the error value. -/
theorem opcode_decode_exact_witness :
    (5 : Nat) < 2 ^ 32 ∧ (5 : Nat) ∉ recognizedOpcodes ∧
    Opcode.tryFrom 5 = Except.error FsError.unsupportedOpcode :=
  ⟨by decide, by decide, opcode_decode_exact.2 5 (by decide) (by decide)⟩

/-- C9: none of the thirteen wire record structs has padding: the C-layout
size equals the plain sum of the field sizes, and the byte encoding of any
record value consists of exactly that many field bytes, so no uninitialized
padding byte can reach guest-visible memory. -/
theorem records_no_padding :
    (reprCSize attrFieldTys = sumFieldSizes attrFieldTys ∧
     reprCSize inHeaderFieldTys = sumFieldSizes inHeaderFieldTys ∧
     reprCSize outHeaderFieldTys = sumFieldSizes outHeaderFieldTys ∧
     reprCSize initInFieldTys = sumFieldSizes initInFieldTys ∧
     reprCSize initOutFieldTys = sumFieldSizes initOutFieldTys ∧
     reprCSize entryOutFieldTys = sumFieldSizes entryOutFieldTys ∧
     reprCSize attrOutFieldTys = sumFieldSizes attrOutFieldTys ∧
     reprCSize createInFieldTys = sumFieldSizes createInFieldTys ∧
     reprCSize openInFieldTys = sumFieldSizes openInFieldTys ∧
     reprCSize openOutFieldTys = sumFieldSizes openOutFieldTys ∧
     reprCSize readInFieldTys = sumFieldSizes readInFieldTys ∧
     reprCSize writeInFieldTys = sumFieldSizes writeInFieldTys ∧
     reprCSize writeOutFieldTys = sumFieldSizes writeOutFieldTys) ∧
    ((∀ a : Attr, a.encode.length = reprCSize attrFieldTys) ∧
     (∀ h : InHeader, h.encode.length = reprCSize inHeaderFieldTys) ∧
     (∀ h : OutHeader, h.encode.length = reprCSize outHeaderFieldTys) ∧
     (∀ i : InitIn, i.encode.length = reprCSize initInFieldTys) ∧
     (∀ i : InitOut, i.unused.length = 7 →
        i.encode.length = reprCSize initOutFieldTys) ∧
     (∀ e : EntryOut, e.encode.length = reprCSize entryOutFieldTys) ∧
     (∀ a : AttrOut, a.encode.length = reprCSize attrOutFieldTys) ∧
     (∀ c : CreateIn, c.encode.length = reprCSize createInFieldTys) ∧
     (∀ o : OpenIn, o.encode.length = reprCSize openInFieldTys) ∧
     (∀ o : OpenOut, o.encode.length = reprCSize openOutFieldTys) ∧
     (∀ r : ReadIn, r.encode.length = reprCSize readInFieldTys) ∧
     (∀ w : WriteIn, w.encode.length = reprCSize writeInFieldTys) ∧
     (∀ w : WriteOut, w.encode.length = reprCSize writeOutFieldTys)) := by
  refine ⟨by decide, ?_, ?_, ?_, ?_, ?_, ?_, ?_, ?_, ?_, ?_, ?_, ?_, ?_⟩
  · exact fun a => (attr_encode_length a).trans (by decide)
  · exact fun h => (inHeader_encode_length h).trans (by decide)
  · exact fun h => (outHeader_encode_length h).trans (by decide)
  · exact fun i => (initIn_encode_length i).trans (by decide)
  · exact fun i h7 => (initOut_encode_length i h7).trans (by decide)
  · exact fun e => (entryOut_encode_length e).trans (by decide)
  · exact fun a => (attrOut_encode_length a).trans (by decide)
  · exact fun c => (createIn_encode_length c).trans (by decide)
  · exact fun o => (openIn_encode_length o).trans (by decide)
  · exact fun o => (openOut_encode_length o).trans (by decide)
  · exact fun r => (readIn_encode_length r).trans (by decide)
  · exact fun w => (writeIn_encode_length w).trans (by decide)
  · exact fun w => (writeOut_encode_length w).trans (by decide)

/-- Witness for C9: the InitOut value with a concrete seven-element unused
array satisfies the hypothesis, and its encoding is 64 bytes long. -/
theorem records_no_padding_witness :
    ({ major := 7, minor := 32, max_readahead := 0, flags := 0,
       max_background := 0, congestion_threshold := 0, max_write := 0,
       time_gran := 0, max_pages := 0, map_alignment := 0, flags2 := 0,
       unused := [0, 0, 0, 0, 0, 0, 0] } : InitOut).unused.length = 7 ∧
    ({ major := 7, minor := 32, max_readahead := 0, flags := 0,
       max_background := 0, congestion_threshold := 0, max_write := 0,
       time_gran := 0, max_pages := 0, map_alignment := 0, flags2 := 0,
       unused := [0, 0, 0, 0, 0, 0, 0] } : InitOut).encode.length =
      reprCSize initOutFieldTys :=
  ⟨by decide,
   records_no_padding.2.2.2.2.2.1
     { major := 7, minor := 32, max_readahead := 0, flags := 0,
       max_background := 0, congestion_threshold := 0, max_write := 0,
       time_gran := 0, max_pages := 0, map_alignment := 0, flags2 := 0,
       unused := [0, 0, 0, 0, 0, 0, 0] } (by decide)⟩

/-- C3: for every wire record type the byte-level codec is a bijection
between record values and byte strings of the record size: decoding an
encoding returns the value, and encoding the decoding of any byte string of
exactly the record size returns that byte string. -/
theorem record_roundtrip :
    ((∀ a : Attr, a.Valid → Attr.decode a.encode = Except.ok a) ∧
     (∀ bs : List Nat, bs.length = 88 → (∀ b ∈ bs, b < 256) →
       (Attr.decode bs).map Attr.encode = Except.ok bs)) ∧
    ((∀ h : InHeader, h.Valid → InHeader.decode h.encode = Except.ok h) ∧
     (∀ bs : List Nat, bs.length = 40 → (∀ b ∈ bs, b < 256) →
       (InHeader.decode bs).map InHeader.encode = Except.ok bs)) ∧
    ((∀ h : OutHeader, h.Valid → OutHeader.decode h.encode = Except.ok h) ∧
     (∀ bs : List Nat, bs.length = 16 → (∀ b ∈ bs, b < 256) →
       (OutHeader.decode bs).map OutHeader.encode = Except.ok bs)) ∧
    ((∀ i : InitIn, i.Valid → InitIn.decode i.encode = Except.ok i) ∧
     (∀ bs : List Nat, bs.length = 16 → (∀ b ∈ bs, b < 256) →
       (InitIn.decode bs).map InitIn.encode = Except.ok bs)) ∧
    ((∀ i : InitOut, i.Valid → InitOut.decode i.encode = Except.ok i) ∧
     (∀ bs : List Nat, bs.length = 64 → (∀ b ∈ bs, b < 256) →
       (InitOut.decode bs).map InitOut.encode = Except.ok bs)) ∧
    ((∀ e : EntryOut, e.Valid → EntryOut.decode e.encode = Except.ok e) ∧
     (∀ bs : List Nat, bs.length = 128 → (∀ b ∈ bs, b < 256) →
       (EntryOut.decode bs).map EntryOut.encode = Except.ok bs)) ∧
    ((∀ a : AttrOut, a.Valid → AttrOut.decode a.encode = Except.ok a) ∧
     (∀ bs : List Nat, bs.length = 104 → (∀ b ∈ bs, b < 256) →
       (AttrOut.decode bs).map AttrOut.encode = Except.ok bs)) ∧
    ((∀ c : CreateIn, c.Valid → CreateIn.decode c.encode = Except.ok c) ∧
     (∀ bs : List Nat, bs.length = 16 → (∀ b ∈ bs, b < 256) →
       (CreateIn.decode bs).map CreateIn.encode = Except.ok bs)) ∧
    ((∀ o : OpenIn, o.Valid → OpenIn.decode o.encode = Except.ok o) ∧
     (∀ bs : List Nat, bs.length = 8 → (∀ b ∈ bs, b < 256) →
       (OpenIn.decode bs).map OpenIn.encode = Except.ok bs)) ∧
    ((∀ o : OpenOut, o.Valid → OpenOut.decode o.encode = Except.ok o) ∧
     (∀ bs : List Nat, bs.length = 16 → (∀ b ∈ bs, b < 256) →
       (OpenOut.decode bs).map OpenOut.encode = Except.ok bs)) ∧
    ((∀ r : ReadIn, r.Valid → ReadIn.decode r.encode = Except.ok r) ∧
     (∀ bs : List Nat, bs.length = 40 → (∀ b ∈ bs, b < 256) →
       (ReadIn.decode bs).map ReadIn.encode = Except.ok bs)) ∧
    ((∀ w : WriteIn, w.Valid → WriteIn.decode w.encode = Except.ok w) ∧
     (∀ bs : List Nat, bs.length = 40 → (∀ b ∈ bs, b < 256) →
       (WriteIn.decode bs).map WriteIn.encode = Except.ok bs)) ∧
    ((∀ w : WriteOut, w.Valid → WriteOut.decode w.encode = Except.ok w) ∧
     (∀ bs : List Nat, bs.length = 8 → (∀ b ∈ bs, b < 256) →
       (WriteOut.decode bs).map WriteOut.encode = Except.ok bs)) :=
  ⟨⟨attr_decode_encode, attr_encode_decode⟩,
   ⟨inHeader_decode_encode, inHeader_encode_decode⟩,
   ⟨outHeader_decode_encode, outHeader_encode_decode⟩,
   ⟨initIn_decode_encode, initIn_encode_decode⟩,
   ⟨initOut_decode_encode, initOut_encode_decode⟩,
   ⟨entryOut_decode_encode, entryOut_encode_decode⟩,
   ⟨attrOut_decode_encode, attrOut_encode_decode⟩,
   ⟨createIn_decode_encode, createIn_encode_decode⟩,
   ⟨openIn_decode_encode, openIn_encode_decode⟩,
   ⟨openOut_decode_encode, openOut_encode_decode⟩,
   ⟨readIn_decode_encode, readIn_encode_decode⟩,
   ⟨writeIn_decode_encode, writeIn_encode_decode⟩,
   ⟨writeOut_decode_encode, writeOut_encode_decode⟩⟩

/-- Witness for C3: a concrete valid Attr value round-trips through the
codec, and a concrete 88-byte string round-trips the other way. -/
theorem record_roundtrip_witness :
    (⟨1, 2, 3, 4, 5, 6, 7, 8, 9, 10, 11, 12, 13, 14, 15, 16⟩ : Attr).Valid ∧
    Attr.decode (Attr.encode ⟨1, 2, 3, 4, 5, 6, 7, 8, 9, 10, 11, 12, 13, 14, 15, 16⟩) =
      Except.ok ⟨1, 2, 3, 4, 5, 6, 7, 8, 9, 10, 11, 12, 13, 14, 15, 16⟩ ∧
    (List.replicate 88 7).length = 88 ∧
    (Attr.decode (List.replicate 88 7)).map Attr.encode =
      Except.ok (List.replicate 88 7) :=
  ⟨by decide,
   record_roundtrip.1.1 ⟨1, 2, 3, 4, 5, 6, 7, 8, 9, 10, 11, 12, 13, 14, 15, 16⟩
     (by decide),
   by decide,
   record_roundtrip.1.2 (List.replicate 88 7) (by decide) (by decide)⟩

/-- C4: decoding any byte string shorter than the record size fails with the
InvalidMessage error for every wire record type; no value is produced and no
byte is fabricated. -/
theorem decode_short_invalid :
    (∀ bs : List Nat, bs.length < 88 →
      Attr.decode bs = Except.error FsError.invalidMessage) ∧
    (∀ bs : List Nat, bs.length < 40 →
      InHeader.decode bs = Except.error FsError.invalidMessage) ∧
    (∀ bs : List Nat, bs.length < 16 →
      OutHeader.decode bs = Except.error FsError.invalidMessage) ∧
    (∀ bs : List Nat, bs.length < 16 →
      InitIn.decode bs = Except.error FsError.invalidMessage) ∧
    (∀ bs : List Nat, bs.length < 64 →
      InitOut.decode bs = Except.error FsError.invalidMessage) ∧
    (∀ bs : List Nat, bs.length < 128 →
      EntryOut.decode bs = Except.error FsError.invalidMessage) ∧
    (∀ bs : List Nat, bs.length < 104 →
      AttrOut.decode bs = Except.error FsError.invalidMessage) ∧
    (∀ bs : List Nat, bs.length < 16 →
      CreateIn.decode bs = Except.error FsError.invalidMessage) ∧
    (∀ bs : List Nat, bs.length < 8 →
      OpenIn.decode bs = Except.error FsError.invalidMessage) ∧
    (∀ bs : List Nat, bs.length < 16 →
      OpenOut.decode bs = Except.error FsError.invalidMessage) ∧
    (∀ bs : List Nat, bs.length < 40 →
      ReadIn.decode bs = Except.error FsError.invalidMessage) ∧
    (∀ bs : List Nat, bs.length < 40 →
      WriteIn.decode bs = Except.error FsError.invalidMessage) ∧
    (∀ bs : List Nat, bs.length < 8 →
      WriteOut.decode bs = Except.error FsError.invalidMessage) := by
  refine ⟨?_, ?_, ?_, ?_, ?_, ?_, ?_, ?_, ?_, ?_, ?_, ?_, ?_⟩
  · exact fun bs h => decodeRecord_short Attr.widths Attr.ofVals bs
      (by have he : sumWidths Attr.widths = 88 := by decide
          omega)
  · exact fun bs h => decodeRecord_short InHeader.widths InHeader.ofVals bs
      (by have he : sumWidths InHeader.widths = 40 := by decide
          omega)
  · exact fun bs h => decodeRecord_short OutHeader.widths OutHeader.ofVals bs
      (by have he : sumWidths OutHeader.widths = 16 := by decide
          omega)
  · exact fun bs h => decodeRecord_short InitIn.widths InitIn.ofVals bs
      (by have he : sumWidths InitIn.widths = 16 := by decide
          omega)
  · exact fun bs h => decodeRecord_short InitOut.widths InitOut.ofVals bs
      (by have he : sumWidths InitOut.widths = 64 := by decide
          omega)
  · exact fun bs h => decodeRecord_short EntryOut.widths EntryOut.ofVals bs
      (by have he : sumWidths EntryOut.widths = 128 := by decide
          omega)
  · exact fun bs h => decodeRecord_short AttrOut.widths AttrOut.ofVals bs
      (by have he : sumWidths AttrOut.widths = 104 := by decide
          omega)
  · exact fun bs h => decodeRecord_short CreateIn.widths CreateIn.ofVals bs
      (by have he : sumWidths CreateIn.widths = 16 := by decide
          omega)
  · exact fun bs h => decodeRecord_short OpenIn.widths OpenIn.ofVals bs
      (by have he : sumWidths OpenIn.widths = 8 := by decide
          omega)
  · exact fun bs h => decodeRecord_short OpenOut.widths OpenOut.ofVals bs
      (by have he : sumWidths OpenOut.widths = 16 := by decide
          omega)
  · exact fun bs h => decodeRecord_short ReadIn.widths ReadIn.ofVals bs
      (by have he : sumWidths ReadIn.widths = 40 := by decide
          omega)
  · exact fun bs h => decodeRecord_short WriteIn.widths WriteIn.ofVals bs
      (by have he : sumWidths WriteIn.widths = 40 := by decide
          omega)
  · exact fun bs h => decodeRecord_short WriteOut.widths WriteOut.ofVals bs
      (by have he : sumWidths WriteOut.widths = 8 := by decide
          omega)

/-- Witness for C4: the empty byte string is shorter than an Attr record and
its decoding fails with InvalidMessage. -/
theorem decode_short_invalid_witness :
    ([] : List Nat).length < 88 ∧
    Attr.decode [] = Except.error FsError.invalidMessage :=
  ⟨by decide, decode_short_invalid.1 [] (by decide)⟩

/-- C5: the ForgetIn request record consists of the single little-endian
field nlookup of type u64, has total size 8, decodes like every other
fixed-layout record, and the Forget (opcode 2) request body is parsed as
this record. -/
theorem forgetIn_record :
    reprCSize forgetInFieldTys = 8 ∧ sumFieldSizes forgetInFieldTys = 8 ∧
    Opcode.tryFrom 2 = Except.ok Opcode.Forget ∧
    (∀ f : ForgetIn, f.Valid → ForgetIn.decode f.encode = Except.ok f) ∧
    (∀ bs : List Nat, bs.length = 8 → (∀ b ∈ bs, b < 256) →
      (ForgetIn.decode bs).map ForgetIn.encode = Except.ok bs) ∧
    (∀ bs : List Nat, bs.length < 8 →
      ForgetIn.decode bs = Except.error FsError.invalidMessage) ∧
    (∀ v : Nat, v < 256 ^ 8 →
      (parseForgetBody (leBytes 8 v)).map ForgetIn.nlookup = Except.ok v) := by
  refine ⟨by decide, by decide, rfl, forgetIn_decode_encode, forgetIn_encode_decode,
    ?_, ?_⟩
  · exact fun bs h => decodeRecord_short ForgetIn.widths ForgetIn.ofVals bs
      (by have he : sumWidths ForgetIn.widths = 8 := by decide
          omega)
  · intro v hv
    have henc : ForgetIn.encode { nlookup := v } = leBytes 8 v := by
      simp [ForgetIn.encode, ForgetIn.fieldVals, encodeFields]
    have hdec : ForgetIn.decode (leBytes 8 v) = Except.ok { nlookup := v } := by
      rw [← henc]
      exact forgetIn_decode_encode { nlookup := v } hv
    simp [parseForgetBody, hdec, Except.map]

/-- Witness for C5: the eight-byte little-endian encoding of 42 parses as a
ForgetIn with nlookup 42. -/
theorem forgetIn_record_witness :
    (42 : Nat) < 256 ^ 8 ∧
    (parseForgetBody (leBytes 8 42)).map ForgetIn.nlookup = Except.ok 42 :=
  ⟨by decide, forgetIn_record.2.2.2.2.2.2 42 (by decide)⟩

/-- C6: every Init reply carries the fixed field values max_background 0,
congestion_threshold 0, max_write 1048576, time_gran 1, max_pages 256,
map_alignment 0, flags2 0 and a zeroed unused array, echoes max_readahead
from the request, and a second Init of the same request after a successful
one is accepted idempotently with the same reply. -/
theorem init_reply_fields (mask : Nat) (st st' : ServerState) (r : InitIn)
    (out : InitOut) (h : handleInit mask st r = (st', Except.ok out)) :
    out.max_background = 0 ∧ out.congestion_threshold = 0 ∧
    out.max_write = 1048576 ∧ out.time_gran = 1 ∧ out.max_pages = 256 ∧
    out.map_alignment = 0 ∧ out.flags2 = 0 ∧ out.unused = List.replicate 7 0 ∧
    out.max_readahead = r.max_readahead ∧
    handleInit mask st' r = (st', Except.ok out) := by
  unfold handleInit at h ⊢
  split at h
  · simp at h
  · rename_i hmaj
    simp only [Prod.mk.injEq, Except.ok.injEq] at h
    obtain ⟨h1, h2⟩ := h
    subst h1
    subst h2
    rw [if_neg hmaj]
    exact ⟨rfl, rfl, rfl, rfl, rfl, rfl, rfl, rfl, rfl, rfl⟩

/-- Witness for C6: the handshake of scenario S1: client 7.34 with
max_readahead 131072 gets the fixed reply fields and the echoed
max_readahead, and a repeated Init returns the identical reply. -/
theorem init_reply_fields_witness :
    ({ major := 7, minor := 32, max_readahead := 131072, flags := 0,
       max_background := 0, congestion_threshold := 0, max_write := 1048576,
       time_gran := 1, max_pages := 256, map_alignment := 0, flags2 := 0,
       unused := List.replicate 7 0 } : InitOut).max_background = 0 ∧
    ({ major := 7, minor := 32, max_readahead := 131072, flags := 0,
       max_background := 0, congestion_threshold := 0, max_write := 1048576,
       time_gran := 1, max_pages := 256, map_alignment := 0, flags2 := 0,
       unused := List.replicate 7 0 } : InitOut).congestion_threshold = 0 ∧
    ({ major := 7, minor := 32, max_readahead := 131072, flags := 0,
       max_background := 0, congestion_threshold := 0, max_write := 1048576,
       time_gran := 1, max_pages := 256, map_alignment := 0, flags2 := 0,
       unused := List.replicate 7 0 } : InitOut).max_write = 1048576 ∧
    ({ major := 7, minor := 32, max_readahead := 131072, flags := 0,
       max_background := 0, congestion_threshold := 0, max_write := 1048576,
       time_gran := 1, max_pages := 256, map_alignment := 0, flags2 := 0,
       unused := List.replicate 7 0 } : InitOut).time_gran = 1 ∧
    ({ major := 7, minor := 32, max_readahead := 131072, flags := 0,
       max_background := 0, congestion_threshold := 0, max_write := 1048576,
       time_gran := 1, max_pages := 256, map_alignment := 0, flags2 := 0,
       unused := List.replicate 7 0 } : InitOut).max_pages = 256 ∧
    ({ major := 7, minor := 32, max_readahead := 131072, flags := 0,
       max_background := 0, congestion_threshold := 0, max_write := 1048576,
       time_gran := 1, max_pages := 256, map_alignment := 0, flags2 := 0,
       unused := List.replicate 7 0 } : InitOut).map_alignment = 0 ∧
    ({ major := 7, minor := 32, max_readahead := 131072, flags := 0,
       max_background := 0, congestion_threshold := 0, max_write := 1048576,
       time_gran := 1, max_pages := 256, map_alignment := 0, flags2 := 0,
       unused := List.replicate 7 0 } : InitOut).flags2 = 0 ∧
    ({ major := 7, minor := 32, max_readahead := 131072, flags := 0,
       max_background := 0, congestion_threshold := 0, max_write := 1048576,
       time_gran := 1, max_pages := 256, map_alignment := 0, flags2 := 0,
       unused := List.replicate 7 0 } : InitOut).unused = List.replicate 7 0 ∧
    ({ major := 7, minor := 32, max_readahead := 131072, flags := 0,
       max_background := 0, congestion_threshold := 0, max_write := 1048576,
       time_gran := 1, max_pages := 256, map_alignment := 0, flags2 := 0,
       unused := List.replicate 7 0 } : InitOut).max_readahead =
      ({ major := 7, minor := 34, max_readahead := 131072, flags := 0 } : InitIn).max_readahead ∧
    handleInit 0 { initDone := true }
      { major := 7, minor := 34, max_readahead := 131072, flags := 0 } =
      ({ initDone := true },
       Except.ok
         { major := 7, minor := 32, max_readahead := 131072, flags := 0,
           max_background := 0, congestion_threshold := 0, max_write := 1048576,
           time_gran := 1, max_pages := 256, map_alignment := 0, flags2 := 0,
           unused := List.replicate 7 0 }) :=
  init_reply_fields 0 { initDone := false } { initDone := true }
    { major := 7, minor := 34, max_readahead := 131072, flags := 0 }
    { major := 7, minor := 32, max_readahead := 131072, flags := 0,
      max_background := 0, congestion_threshold := 0, max_write := 1048576,
      time_gran := 1, max_pages := 256, map_alignment := 0, flags2 := 0,
      unused := List.replicate 7 0 } rfl

/-- C7: a Write whose offset equals the running offset of the writer handle
appends exactly the payload, advances the running offset by exactly size and
replies WriteOut with that size and zero padding; a Write at any other
offset is rejected with InvalidArgument (EINVAL) leaving the offset and the
buffered contents unchanged. -/
theorem write_append_only (h : WriterHandle) (w : WriteIn) (bytes : List Nat)
    (hlen : bytes.length = w.size) :
    (w.offset = h.offset →
      handleWrite h w bytes =
        ({ offset := h.offset + w.size, data := h.data ++ bytes },
         Except.ok { size := w.size, padding := 0 })) ∧
    (w.offset ≠ h.offset →
      handleWrite h w bytes = (h, Except.error FsError.invalidArgument)) := by
  constructor
  · intro heq
    simp [handleWrite, heq]
  · intro hne
    simp [handleWrite, hne]

/-- Witness for C7: scenario S5: on a fresh handle a three-byte write at
offset 0 is appended and acknowledged; on the resulting handle at offset 3 a
write at offset 0 is rejected unchanged. -/
theorem write_append_only_witness :
    ([97, 98, 99] : List Nat).length =
      ({ fh := 2, offset := 0, size := 3, write_flags := 0, lock_owner := 0,
         flags := 0, padding := 0 } : WriteIn).size ∧
    ((0 : Nat) = 0 →
      handleWrite { offset := 0, data := [] }
        { fh := 2, offset := 0, size := 3, write_flags := 0, lock_owner := 0,
          flags := 0, padding := 0 } [97, 98, 99] =
        ({ offset := 0 + 3, data := [] ++ [97, 98, 99] },
         Except.ok { size := 3, padding := 0 })) ∧
    ((0 : Nat) ≠ 0 →
      handleWrite { offset := 0, data := [] }
        { fh := 2, offset := 0, size := 3, write_flags := 0, lock_owner := 0,
          flags := 0, padding := 0 } [97, 98, 99] =
        ({ offset := 0, data := [] }, Except.error FsError.invalidArgument)) :=
  ⟨by decide,
   (write_append_only { offset := 0, data := [] }
     { fh := 2, offset := 0, size := 3, write_flags := 0, lock_owner := 0,
       flags := 0, padding := 0 } [97, 98, 99] (by decide)).1,
   (write_append_only { offset := 0, data := [] }
     { fh := 2, offset := 0, size := 3, write_flags := 0, lock_owner := 0,
       flags := 0, padding := 0 } [97, 98, 99] (by decide)).2⟩

/-- C8: the synthesized Attr of any backend metadata has blocks equal to the
ceiling of size over 512, mode 0o40755 for a directory and 0o100644 for a
file, nlink 2 for a directory and 1 for a file, the three time fields equal
to the last-modified time or zero when absent, and uid, gid, rdev zero,
blksize 4096, flags zero. -/
theorem attr_synthesis (nodeid : Nat) (m : Metadata) :
    (synthesizeAttr nodeid m).blocks =
      ((synthesizeAttr nodeid m).size + 511) / 512 ∧
    (synthesizeAttr nodeid m).size ≤ 512 * (synthesizeAttr nodeid m).blocks ∧
    512 * (synthesizeAttr nodeid m).blocks < (synthesizeAttr nodeid m).size + 512 ∧
    (synthesizeAttr nodeid m).mode = (if m.isDir then 0o40755 else 0o100644) ∧
    (synthesizeAttr nodeid m).nlink = (if m.isDir then 2 else 1) ∧
    (synthesizeAttr nodeid m).atime = (m.lastModified.getD (0, 0)).1 ∧
    (synthesizeAttr nodeid m).ctime = (m.lastModified.getD (0, 0)).1 ∧
    (synthesizeAttr nodeid m).mtime = (m.lastModified.getD (0, 0)).1 ∧
    (synthesizeAttr nodeid m).atimensec = (m.lastModified.getD (0, 0)).2 ∧
    (synthesizeAttr nodeid m).ctimensec = (m.lastModified.getD (0, 0)).2 ∧
    (synthesizeAttr nodeid m).mtimensec = (m.lastModified.getD (0, 0)).2 ∧
    (synthesizeAttr nodeid m).uid = 0 ∧ (synthesizeAttr nodeid m).gid = 0 ∧
    (synthesizeAttr nodeid m).rdev = 0 ∧
    (synthesizeAttr nodeid m).blksize = 4096 ∧
    (synthesizeAttr nodeid m).flags = 0 := by
  refine ⟨rfl, ?_, ?_, rfl, rfl, rfl, rfl, rfl, rfl, rfl, rfl, rfl, rfl, rfl,
    rfl, rfl⟩
  · show (if m.isDir then 0 else m.contentLength) ≤
      512 * (((if m.isDir then 0 else m.contentLength) + 511) / 512)
    omega
  · show 512 * (((if m.isDir then 0 else m.contentLength) + 511) / 512) <
      (if m.isDir then 0 else m.contentLength) + 512
    omega

/-- C10: every wire record type has an all-zero derived Default value: the
encoding of each default record is the all-zero byte string of the record
size, OutHeader default is the zero triple, Attr default has all sixteen
fields zero, and InitOut default has a zeroed seven-element unused array. -/
theorem record_defaults_zero :
    Attr.default.encode = List.replicate 88 0 ∧
    Attr.default = ⟨0, 0, 0, 0, 0, 0, 0, 0, 0, 0, 0, 0, 0, 0, 0, 0⟩ ∧
    InHeader.default.encode = List.replicate 40 0 ∧
    OutHeader.default.encode = List.replicate 16 0 ∧
    OutHeader.default = { len := 0, error := 0, unique := 0 } ∧
    InitIn.default.encode = List.replicate 16 0 ∧
    InitOut.default.encode = List.replicate 64 0 ∧
    InitOut.default.unused = List.replicate 7 0 ∧
    EntryOut.default.encode = List.replicate 128 0 ∧
    AttrOut.default.encode = List.replicate 104 0 ∧
    CreateIn.default.encode = List.replicate 16 0 ∧
    OpenIn.default.encode = List.replicate 8 0 ∧
    OpenOut.default.encode = List.replicate 16 0 ∧
    ReadIn.default.encode = List.replicate 40 0 ∧
    WriteIn.default.encode = List.replicate 40 0 ∧
    WriteOut.default.encode = List.replicate 8 0 := by
  decide

end OpendalVirtioFs
